import Mathlib

/-!
Verification of the transaction-authoring core in
vendor/github.com/classzz/czzwallet/wallet/txauthor/author.go.

Amounts (czzutil.Amount, an int64 count of satoshis) are modeled as
unbounded Int: the authoring arithmetic stays far below the int64 range.
Byte strings (scripts) are lists of Nat.  The collaborator callbacks
(InputSource, ChangeSource, the txscript library, SecretsSource) are
modeled as explicit function parameters; opaque collaborator errors are
carried as Nat codes.  A Go runtime index-out-of-range fault is modeled
as a distinguished outcome, kept separate from returned errors.
-/

namespace TxAuthor

/-- czzutil.Amount: an int64 number of satoshis, modeled as Int. -/
abbrev Amount := Int

/-- A script (opaque byte sequence). -/
abbrev Script := List Nat

/-- wire.TxOut: an output value and its locking script. -/
structure TxOut where
  value : Amount
  pkScript : Script
  deriving DecidableEq, Repr

/-- wire.TxIn: a previous-output reference and the unlocking script slot. -/
structure TxIn where
  previousOutPoint : Nat × Nat
  signatureScript : Script
  deriving DecidableEq, Repr

/-- wire.MsgTx: version, inputs, outputs, lock time. -/
structure MsgTx where
  version : Int
  txIn : List TxIn
  txOut : List TxOut
  lockTime : Nat
  deriving DecidableEq, Repr

/-- wire.TxVersion. -/
def TxVersion : Int := 1

/-- AuthoredTx from author.go: the assembled transaction plus parallel
metadata and the change index (negative if no change). -/
structure AuthoredTx where
  tx : MsgTx
  prevScripts : List Script
  prevInputValues : List Amount
  totalInput : Amount
  changeIndex : Int
  deriving DecidableEq, Repr

/-- Modelled from the spec: helpers.SumOutputValues, the sum of all
requested output values (spec 3: target amount = sum of output values). -/
def SumOutputValues (outputs : List TxOut) : Amount :=
  (outputs.map TxOut.value).sum

/-- Modelled from the spec: wire.VarIntSerializeSize, the byte size of the
variable-length integer encoding used by the serialize-size estimate. -/
def VarIntSerializeSize (n : Nat) : Nat :=
  if n < 253 then 1 else if n < 65536 then 3 else if n < 4294967296 then 5 else 9

/-- txsizes.P2PKHPkScriptSize: the size of a pay-to-pubkey-hash locking
script (the size class the fee estimator assumes for change). -/
def P2PKHPkScriptSize : Nat := 25

/-- Modelled from the spec: the worst-case serialized size of an input
redeeming a P2PKH output (fixed per-input overhead plus the
unlocking-script upper bound, spec 4.1). -/
def RedeemP2PKHInputSize : Nat := 149

/-- Modelled from the spec: the serialized size of a P2PKH output
(8-byte value, 1-byte script length, 25-byte script). -/
def P2PKHOutputSize : Nat := 34

/-- Modelled from the spec: helpers.SumOutputSerializeSizes, the summed
serialized size of the given outputs (fixed per-output overhead plus the
script bytes, spec 4.1). -/
def SumOutputSerializeSizes (outputs : List TxOut) : Nat :=
  (outputs.map fun o => 8 + VarIntSerializeSize o.pkScript.length + o.pkScript.length).sum

/-- Modelled from the spec: txsizes.EstimateSerializeSize, an upper bound
on the signed serialized size of a transaction with the given number of
P2PKH inputs, the given outputs, and (optionally) one extra change output
slot of P2PKH size (spec 4.1). -/
def EstimateSerializeSize (inputCount : Nat) (txOuts : List TxOut)
    (addChangeOutput : Bool) : Nat :=
  10 + VarIntSerializeSize inputCount
    + VarIntSerializeSize (txOuts.length + (if addChangeOutput then 1 else 0))
    + inputCount * RedeemP2PKHInputSize
    + SumOutputSerializeSizes txOuts
    + (if addChangeOutput then P2PKHOutputSize else 0)

/-- Modelled from the spec: txrules.FeeForSerializeSize, the fee for a
transaction of the given size at the given relay fee rate per kilobyte;
scales linearly and truncates toward zero (spec 4.1). -/
def FeeForSerializeSize (relayFeePerKb : Amount) (txSerializeSize : Nat) : Amount :=
  relayFeePerKb * (txSerializeSize : Int) / 1000

/-- Modelled from the spec: txrules.IsDustAmount, the change/dust policy:
an amount is dust when the fee-rate cost of later spending an output of
the given script-size class exceeds one third of the amount (spec 4.3). -/
def IsDustAmount (amount : Amount) (scriptSize : Nat) (relayFeePerKb : Amount) : Bool :=
  amount * 1000 / (3 * ((8 + VarIntSerializeSize scriptSize + scriptSize + 148 : Nat) : Int))
    < relayFeePerKb

/-- What one call of the InputSource callback returns on success: the
total input value, the selected inputs, their previous values and their
previous locking scripts. -/
structure InputSourceResult where
  total : Amount
  inputs : List TxIn
  inputValues : List Amount
  scripts : List Script
  deriving DecidableEq, Repr

/-- InputSource callback.  A Go closure may be stateful, so the model
indexes each call by its 0-based call number; errors are opaque codes. -/
abbrev InputSource := Nat → Amount → Except Nat InputSourceResult

/-- ChangeSource callback.  It is invoked zero or one times per build, so
one value (script or opaque error code) suffices. -/
abbrev ChangeSource := Except Nat Script

/-- The error kinds NewUnsignedTransaction can return.  insufficientFunds
is the typed InputSourceError kind; inputSource and changeSource carry
opaque collaborator errors through unchanged. -/
inductive BuildError where
  | inputSource (code : Nat)
  | insufficientFunds
  | changeSource (code : Nat)
  | feeEstimationConsistency
  deriving DecidableEq, Repr

/-- Instrumented outcome of a build: the returned value or error (none
when the loop fuel ran out with the loop still running), the number of
InputSource calls made, and whether ChangeSource was invoked. -/
structure BuildOutcome where
  result : Option (Except BuildError AuthoredTx)
  inputCalls : Nat
  changeInvoked : Bool
  deriving Repr

/-- The outcome of one iteration of the fee-negotiation loop: either the
loop finishes with a result (recording whether the change source was
invoked), or it retries with the recomputed target fee (the continue on
author.go line 101). -/
inductive StepResult where
  | done (res : Except BuildError AuthoredTx) (changeInvoked : Bool)
  | again (newTargetFee : Amount)

/-- Whether a step outcome ends the loop. -/
def StepResult.isDone : StepResult → Bool
  | .done _ _ => true
  | .again _ => false

/-- The convergence tail of a loop iteration (author.go lines 104-134):
assemble the unsigned transaction, decide the change output under the
dust policy (invoking fetchChange when a non-dust change is due, with the
size guard on the returned script), and build the returned AuthoredTx. -/
def finalizeTx (outputs : List TxOut) (relayFeePerKb : Amount)
    (fetchChange : ChangeSource) (r : InputSourceResult)
    (maxRequiredFee : Amount) : StepResult :=
  let targetAmount := SumOutputValues outputs
  let unsignedTransaction : MsgTx := ⟨TxVersion, r.inputs, outputs, 0⟩
  let changeAmount := r.total - targetAmount - maxRequiredFee
  if changeAmount ≠ 0 ∧ IsDustAmount changeAmount P2PKHPkScriptSize relayFeePerKb = false then
    match fetchChange with
    | .error e => .done (.error (.changeSource e)) true
    | .ok changeScript =>
      if changeScript.length > P2PKHPkScriptSize then
        .done (.error .feeEstimationConsistency) true
      else
        .done (.ok ⟨{ unsignedTransaction with
            txOut := outputs ++ [⟨changeAmount, changeScript⟩] },
          r.scripts, r.inputValues, r.total, (outputs.length : Int)⟩) true
  else .done (.ok ⟨unsignedTransaction, r.scripts, r.inputValues, r.total, -1⟩) false

/-- One iteration of the fee-negotiation loop of NewUnsignedTransaction
(author.go lines 88-134, the body of the for loop, modeled as the
explicit step of a state machine whose state is the current target fee).
k is the 0-based call index of this InputSource call. -/
def NewUnsignedTransactionStep (outputs : List TxOut) (relayFeePerKb : Amount)
    (fetchInputs : InputSource) (fetchChange : ChangeSource)
    (k : Nat) (targetFee : Amount) : StepResult :=
  let targetAmount := SumOutputValues outputs
  match fetchInputs k (targetAmount + targetFee) with
  | .error e => .done (.error (.inputSource e)) false
  | .ok r =>
    if r.total < targetAmount + targetFee then
      .done (.error .insufficientFunds) false
    else
      let maxSignedSize := EstimateSerializeSize r.inputs.length outputs true
      let maxRequiredFee := FeeForSerializeSize relayFeePerKb maxSignedSize
      let remainingAmount := r.total - targetAmount
      if remainingAmount < maxRequiredFee then .again maxRequiredFee
      else finalizeTx outputs relayFeePerKb fetchChange r maxRequiredFee

/-- The fee-negotiation loop of NewUnsignedTransaction (author.go lines
87-135): run the iteration step until it finishes, with fuel making the
unbounded Go loop a total function.  k is the 0-based call index of the
next InputSource call. -/
def NewUnsignedTransactionLoop (outputs : List TxOut) (relayFeePerKb : Amount)
    (fetchInputs : InputSource) (fetchChange : ChangeSource) :
    Nat → Nat → Amount → BuildOutcome
  | 0, _, _ => ⟨none, 0, false⟩
  | fuel + 1, k, targetFee =>
    match NewUnsignedTransactionStep outputs relayFeePerKb fetchInputs fetchChange
        k targetFee with
    | .done res changeInvoked => ⟨some res, 1, changeInvoked⟩
    | .again newTargetFee =>
      let o := NewUnsignedTransactionLoop outputs relayFeePerKb fetchInputs fetchChange
        fuel (k + 1) newTargetFee
      ⟨o.result, o.inputCalls + 1, o.changeInvoked⟩

/-- NewUnsignedTransaction (author.go lines 80-136): computes the target
amount and the optimistic zero-input fee guess, then runs the
fee-negotiation loop. -/
def NewUnsignedTransaction (fuel : Nat) (outputs : List TxOut) (relayFeePerKb : Amount)
    (fetchInputs : InputSource) (fetchChange : ChangeSource) : BuildOutcome :=
  let targetFee := FeeForSerializeSize relayFeePerKb (EstimateSerializeSize 0 outputs true)
  NewUnsignedTransactionLoop outputs relayFeePerKb fetchInputs fetchChange fuel 0 targetFee

/-- RandomizeOutputPosition (author.go lines 141-145) with the random draw
r injected as a parameter.  Go evaluates outputs at both positions before
assigning; an index outside the slice is a runtime fault, modeled as
none. -/
def RandomizeOutputPosition (outputs : List TxOut) (index : Int) (r : Nat) :
    Option (List TxOut × Nat) :=
  if index < 0 then none
  else
    match outputs[index.toNat]?, outputs[r]? with
    | some atIndex, some atR => some ((outputs.set r atIndex).set index.toNat atR, r)
    | _, _ => none

/-- RandomizeChangePosition (author.go lines 149-151): re-targets
RandomizeOutputPosition at the recorded change index and stores the new
index, with the random draw r injected. -/
def RandomizeChangePosition (atx : AuthoredTx) (r : Nat) : Option AuthoredTx :=
  (RandomizeOutputPosition atx.tx.txOut atx.changeIndex r).map fun p =>
    { atx with tx := { atx.tx with txOut := p.1 }, changeIndex := (p.2 : Int) }

/-- txscript.ExtractPkScriptAddrs, taken as an external capability: maps a
previous locking script to the extracted spending identities (addresses,
modeled as Nat) or an opaque error code. -/
abbrev ExtractFn := Script → Except Nat (List Nat)

/-- secrets.GetKey, taken as an external capability: maps an address to a
private key (modeled as Nat) and a compression flag, or an opaque error. -/
abbrev GetKeyFn := Nat → Except Nat (Nat × Bool)

/-- txscript.SignatureScript, taken as an external capability: builds the
unlocking script from the transaction state, input index, previous value,
previous script, key and compression flag (sighash-all is fixed in the
caller and omitted). -/
abbrev SignFn := MsgTx → Nat → Amount → Script → Nat → Bool → Except Nat Script

/-- The error kinds of the signing pass.  indexOutOfRange models a Go
runtime index-out-of-range fault, not a returned error value. -/
inductive SignError where
  | shapeMismatch
  | extract (code : Nat)
  | getKey (code : Nat)
  | sign (code : Nat)
  | indexOutOfRange
  deriving DecidableEq, Repr

/-- Overwrite input slot i of the transaction with the given unlocking
script (the in-place write inputs[i].SignatureScript = script). -/
def setSignatureScript (tx : MsgTx) (i : Nat) (script : Script) : MsgTx :=
  match tx.txIn[i]? with
  | some txin => { tx with txIn := tx.txIn.set i { txin with signatureScript := script } }
  | none => tx

/-- One iteration of the AddAllInputScripts loop body (author.go lines
186-202) for input i: extract identities from the previous script, look
up the key for the first identity, and build the unlocking script from
the current transaction state; returns the script or the first error. -/
def addInputScript (extractPkScriptAddrs : ExtractFn) (getKey : GetKeyFn)
    (signatureScript : SignFn) (prevPkScripts : List Script) (inputValues : List Amount)
    (i : Nat) (tx : MsgTx) : Except SignError Script :=
  match prevPkScripts[i]? with
  | none => .error .indexOutOfRange
  | some pkScript =>
    match extractPkScriptAddrs pkScript with
    | .error e => .error (.extract e)
    | .ok addrs =>
      match addrs[0]? with
      | none => .error .indexOutOfRange
      | some addr =>
        match getKey addr with
        | .error e => .error (.getKey e)
        | .ok pk =>
          match inputValues[i]? with
          | none => .error .indexOutOfRange
          | some value =>
            match signatureScript tx i value pkScript pk.1 pk.2 with
            | .error e => .error (.sign e)
            | .ok script => .ok script

/-- The per-input loop of AddAllInputScripts (author.go lines 185-204):
run the loop body on each remaining input index and write the produced
unlocking script in place.  The transaction state is threaded through, so
on error the already-written scripts of earlier inputs remain. -/
def AddAllInputScriptsLoop (extractPkScriptAddrs : ExtractFn) (getKey : GetKeyFn)
    (signatureScript : SignFn) (prevPkScripts : List Script) (inputValues : List Amount) :
    List Nat → MsgTx → Except SignError Unit × MsgTx
  | [], tx => (.ok (), tx)
  | i :: rest, tx =>
    match addInputScript extractPkScriptAddrs getKey signatureScript prevPkScripts
        inputValues i tx with
    | .error e => (.error e, tx)
    | .ok script =>
      AddAllInputScriptsLoop extractPkScriptAddrs getKey signatureScript
        prevPkScripts inputValues rest (setSignatureScript tx i script)

/-- AddAllInputScripts (author.go lines 174-207): checks that the number
of inputs equals the number of previous scripts (and only that), then
runs the signing loop over all input indices.  Returns the error (if any)
together with the final transaction state reached by the in-place
mutation. -/
def AddAllInputScripts (extractPkScriptAddrs : ExtractFn) (getKey : GetKeyFn)
    (signatureScript : SignFn) (tx : MsgTx) (prevPkScripts : List Script)
    (inputValues : List Amount) : Except SignError Unit × MsgTx :=
  if tx.txIn.length ≠ prevPkScripts.length then (.error .shapeMismatch, tx)
  else
    AddAllInputScriptsLoop extractPkScriptAddrs getKey signatureScript prevPkScripts
      inputValues (List.range tx.txIn.length) tx

/-! Concrete fixtures used by witnesses and counterexamples. -/

/-- A 25-byte (P2PKH-sized) locking script. -/
def script25 : Script := List.replicate 25 0

/-- One 50000-satoshi payment output with a P2PKH-sized script. -/
def outputsPay : List TxOut := [⟨50000, script25⟩]

/-- A change source producing a 25-byte script. -/
def changeOk25 : ChangeSource := .ok (List.replicate 25 7)

/-- A change source producing a 26-byte script, one byte over the
P2PKH size class. -/
def changeOk26 : ChangeSource := .ok (List.replicate 26 7)

/-- An input source returning one input worth one satoshi more than each
request. -/
def sourcePlusOne : InputSource :=
  fun _ t => .ok ⟨t + 1, [⟨(0, 0), []⟩], [t + 1], [[]]⟩

/-- An input source returning one input worth 1000 satoshis more than
each request. -/
def sourcePlus1000 : InputSource :=
  fun _ t => .ok ⟨t + 1000, [⟨(0, 0), []⟩], [t + 1000], [[]]⟩

/-- An input source that always returns a total of zero (never enough). -/
def sourceZero : InputSource := fun _ _ => .ok ⟨0, [], [], []⟩

/-- An input source returning exactly the requested total, with one input
for requests up to 50080 and two inputs for larger requests. -/
def sourceExactGrowing : InputSource := fun _ t =>
  if t ≤ 50080 then .ok ⟨t, [⟨(0, 0), []⟩], [t], [[]]⟩
  else .ok ⟨t, [⟨(0, 0), []⟩, ⟨(1, 0), []⟩], [t - 1, 1], [[], []]⟩

/-- A single-output list worth 100 satoshis with an empty script. -/
def outputs100 : List TxOut := [⟨100, []⟩]

/-- A change source producing an empty script. -/
def changeNil : ChangeSource := .ok []

/-- An authored transaction with no change output (sentinel -1). -/
def atxNoChange : AuthoredTx :=
  ⟨⟨1, [], [⟨50000, script25⟩], 0⟩, [], [], 50000, -1⟩

/-- A two-input transaction with empty unlocking scripts. -/
def txTwoInputs : MsgTx := ⟨1, [⟨(0, 0), []⟩, ⟨(1, 0), []⟩], [⟨50000, script25⟩], 0⟩

/-- A one-input transaction with an empty unlocking script. -/
def txOneInput : MsgTx := ⟨1, [⟨(0, 0), []⟩], [⟨50000, script25⟩], 0⟩

/-- An extraction capability mapping the script [5] to address 0 and the
script [6] to address 1. -/
def extractBySuffix : ExtractFn := fun s => if s = [5] then .ok [0] else .ok [1]

/-- A key lookup succeeding only for address 0. -/
def keyOnlyAddr0 : GetKeyFn := fun a => if a = 0 then .ok (7, true) else .error 42

/-- A key lookup succeeding for every address. -/
def keyAlways : GetKeyFn := fun _ => .ok (7, true)

/-- A signing capability returning the script [9, i] for input i. -/
def sgByIndex : SignFn := fun _ i _ _ _ _ => .ok [9, i]

/-- An extraction capability returning an empty identity list for every
script. -/
def extractEmpty : ExtractFn := fun _ => .ok []

/-- The state txTwoInputs reaches when input 0 has been signed with
sgByIndex (unlocking script [9, 0]) and input 1 is untouched. -/
def txTwoSignedFirst : MsgTx :=
  ⟨1, [⟨(0, 0), [9, 0]⟩, ⟨(1, 0), []⟩], [⟨50000, script25⟩], 0⟩

/-- An extraction capability returning the single address 0. -/
def extractAddr0 : ExtractFn := fun _ => .ok [0]

/-- Two distinguishable outputs. -/
def outputsTwo : List TxOut := [⟨1, []⟩, ⟨2, []⟩]

/-- The authored transaction produced by building outputsPay at fee rate
1000 against sourcePlus1000 and changeOk25: one input worth 51080, an
851-satoshi change output at index 1. -/
def atxChange851 : AuthoredTx :=
  ⟨⟨1, [⟨(0, 0), []⟩], [⟨50000, script25⟩, ⟨851, List.replicate 25 7⟩], 0⟩,
    [[]], [51080], 51080, 1⟩

/-- An input source returning exactly the requested total with a single
input. -/
def sourceExactOne : InputSource := fun _ t => .ok ⟨t, [⟨(0, 0), []⟩], [t], [[]]⟩

/-- The authored transaction produced by building outputsPay at fee rate
1000 against sourcePlusOne and changeOk25: totalInput 50230, no change
output; the one-satoshi remainder is dust and is absorbed into the fee. -/
def atxDust1 : AuthoredTx :=
  ⟨⟨1, [⟨(0, 0), []⟩], [⟨50000, script25⟩], 0⟩, [[]], [50230], 50230, -1⟩

/-! Theorems. -/

/-- Helper: the sum of output values distributes over append. -/
theorem SumOutputValues_append (l1 l2 : List TxOut) :
    SumOutputValues (l1 ++ l2) = SumOutputValues l1 + SumOutputValues l2 := by
  simp [SumOutputValues]

/-- Helper: a shortfall response makes the iteration step finish with the
typed insufficient-funds error, change source not invoked. -/
theorem step_shortfall (outputs : List TxOut) (relayFeePerKb : Amount)
    (fetchInputs : InputSource) (fetchChange : ChangeSource) (k : Nat) (f : Amount)
    (r : InputSourceResult)
    (hok : fetchInputs k (SumOutputValues outputs + f) = .ok r)
    (hlt : r.total < SumOutputValues outputs + f) :
    NewUnsignedTransactionStep outputs relayFeePerKb fetchInputs fetchChange k f
      = .done (.error .insufficientFunds) false := by
  rw [NewUnsignedTransactionStep, hok]
  simp [hlt]

/-- Helper: a finishing step makes the loop return that result, one input
call made, with the step's change-invocation flag. -/
theorem loop_of_step_done (outputs : List TxOut) (relayFeePerKb : Amount)
    (fetchInputs : InputSource) (fetchChange : ChangeSource) (fuel k : Nat) (f : Amount)
    (res : Except BuildError AuthoredTx) (ci : Bool)
    (hstep : NewUnsignedTransactionStep outputs relayFeePerKb fetchInputs fetchChange k f
      = .done res ci) :
    NewUnsignedTransactionLoop outputs relayFeePerKb fetchInputs fetchChange (fuel + 1) k f
      = ⟨some res, 1, ci⟩ := by
  rw [NewUnsignedTransactionLoop, hstep]

/-- Helper: a retrying step makes the loop recurse on the new target fee,
adding one input call. -/
theorem loop_of_step_again (outputs : List TxOut) (relayFeePerKb : Amount)
    (fetchInputs : InputSource) (fetchChange : ChangeSource) (fuel k : Nat) (f f2 : Amount)
    (hstep : NewUnsignedTransactionStep outputs relayFeePerKb fetchInputs fetchChange k f
      = .again f2) :
    NewUnsignedTransactionLoop outputs relayFeePerKb fetchInputs fetchChange (fuel + 1) k f
      = ⟨(NewUnsignedTransactionLoop outputs relayFeePerKb fetchInputs fetchChange
            fuel (k + 1) f2).result,
          (NewUnsignedTransactionLoop outputs relayFeePerKb fetchInputs fetchChange
            fuel (k + 1) f2).inputCalls + 1,
          (NewUnsignedTransactionLoop outputs relayFeePerKb fetchInputs fetchChange
            fuel (k + 1) f2).changeInvoked⟩ := by
  rw [NewUnsignedTransactionLoop, hstep]

/-- Helper: consing an element taken from position m of a list onto the
list with position m overwritten by x is a permutation of consing x. -/
theorem perm_cons_set {α : Type} (xs : List α) (m : Nat) (x b : α)
    (hb : xs[m]? = some b) : (b :: xs.set m x).Perm (x :: xs) := by
  induction xs generalizing m with
  | nil => simp at hb
  | cons y ys ih =>
    cases m with
    | zero =>
      simp only [List.getElem?_cons_zero, Option.some.injEq] at hb
      subst hb
      simpa [List.set] using List.Perm.swap x y ys
    | succ m =>
      simp only [List.getElem?_cons_succ] at hb
      have h1 : (b :: y :: ys.set m x).Perm (y :: b :: ys.set m x) := List.Perm.swap y b _
      have h2 : (y :: b :: ys.set m x).Perm (y :: x :: ys) := (ih m hb).cons y
      have h3 : (y :: x :: ys).Perm (x :: y :: ys) := List.Perm.swap x y ys
      exact (h1.trans h2).trans h3

/-- Helper: swapping the entries at positions i and j of a list yields a
permutation of the list. -/
theorem set_set_swap_perm {α : Type} (l : List α) (i j : Nat) (a b : α)
    (ha : l[i]? = some a) (hb : l[j]? = some b) :
    ((l.set j a).set i b).Perm l := by
  induction l generalizing i j with
  | nil => simp at ha
  | cons y ys ih =>
    cases i with
    | zero =>
      simp only [List.getElem?_cons_zero, Option.some.injEq] at ha
      subst ha
      cases j with
      | zero =>
        simp only [List.getElem?_cons_zero, Option.some.injEq] at hb
        subst hb
        simp [List.set]
      | succ m =>
        simp only [List.getElem?_cons_succ] at hb
        simpa [List.set] using perm_cons_set ys m y b hb
    | succ n =>
      cases j with
      | zero =>
        simp only [List.getElem?_cons_zero, Option.some.injEq] at hb
        subst hb
        simp only [List.getElem?_cons_succ] at ha
        simpa [List.set] using perm_cons_set ys n y a ha
      | succ m =>
        simp only [List.getElem?_cons_succ] at ha hb
        simpa [List.set] using (ih n m ha hb).cons y

/-- Helper: after swapping positions i and j, position j holds the value
that was at position i. -/
theorem getElem?_set_set_swap {α : Type} (l : List α) (i j : Nat) (a b : α)
    (ha : l[i]? = some a) (hb : l[j]? = some b) :
    ((l.set j a).set i b)[j]? = some a := by
  by_cases h : i = j
  · subst h
    have hlt : i < l.length := (List.getElem?_eq_some.mp ha).1
    rw [List.getElem?_set_self (by simpa using hlt)]
    rw [ha] at hb
    exact hb.symm ▸ rfl
  · rw [List.getElem?_set_ne h]
    have hlt : j < l.length := (List.getElem?_eq_some.mp hb).1
    rw [List.getElem?_set_self (by simpa using hlt)]

/-- C3: if an iteration of the fee-negotiation loop gets an error-free
InputSource response whose total is strictly below targetAmount plus the
current estimated fee, the builder returns the typed insufficientFunds
error (the InputSourceError kind, distinct from the opaque inputSource
error constructor), making exactly this one input call and never invoking
the change source. -/
theorem shortfall_insufficient_funds (outputs : List TxOut) (relayFeePerKb : Amount)
    (fetchInputs : InputSource) (fetchChange : ChangeSource) (fuel k : Nat) (f : Amount)
    (r : InputSourceResult)
    (hok : fetchInputs k (SumOutputValues outputs + f) = .ok r)
    (hlt : r.total < SumOutputValues outputs + f) :
    NewUnsignedTransactionLoop outputs relayFeePerKb fetchInputs fetchChange (fuel + 1) k f
      = ⟨some (.error .insufficientFunds), 1, false⟩ :=
  loop_of_step_done outputs relayFeePerKb fetchInputs fetchChange fuel k f _ _
    (step_shortfall outputs relayFeePerKb fetchInputs fetchChange k f r hok hlt)

/-- C3 witness: a source whose total 0 is below the requested 100 makes
the loop return insufficientFunds without invoking the change source. -/
theorem shortfall_insufficient_funds_witness :
    sourceZero 0 (SumOutputValues outputs100 + 0) = .ok ⟨0, [], [], []⟩ ∧
    (⟨0, [], [], []⟩ : InputSourceResult).total < SumOutputValues outputs100 + 0 ∧
    NewUnsignedTransactionLoop outputs100 0 sourceZero changeNil 1 0 0
      = ⟨some (.error .insufficientFunds), 1, false⟩ :=
  ⟨rfl, by decide,
    shortfall_insufficient_funds outputs100 0 sourceZero changeNil 0 0 0
      ⟨0, [], [], []⟩ rfl (by decide)⟩

/-- C5 amended, positive part: when the number of transaction inputs
differs from the number of previous scripts, AddAllInputScripts returns
the shapeMismatch error and leaves the transaction untouched.  (The
length of inputValues is not part of the check.) -/
theorem addAllInputScripts_shape_check (extractA : ExtractFn) (getKey : GetKeyFn)
    (sg : SignFn) (tx : MsgTx) (prevPkScripts : List Script) (inputValues : List Amount)
    (h : tx.txIn.length ≠ prevPkScripts.length) :
    AddAllInputScripts extractA getKey sg tx prevPkScripts inputValues
      = (.error .shapeMismatch, tx) := by
  rw [AddAllInputScripts]
  simp [h]

/-- C5 amended witness: one input against zero previous scripts is
reported as shapeMismatch. -/
theorem addAllInputScripts_shape_check_witness :
    txOneInput.txIn.length ≠ ([] : List Script).length ∧
    AddAllInputScripts extractAddr0 keyAlways sgByIndex txOneInput [] []
      = (.error .shapeMismatch, txOneInput) :=
  ⟨by decide,
    addAllInputScripts_shape_check extractAddr0 keyAlways sgByIndex txOneInput [] []
      (by decide)⟩

/-- C5 counterexample: with one input, one previous script but an empty
inputValues list the three parallel lengths are not all equal, yet the
call does not return the shapeMismatch error: it runs into an
out-of-range index access (a runtime fault) at the first input. -/
theorem inputValues_length_unchecked :
    (AddAllInputScripts extractAddr0 keyAlways sgByIndex txOneInput [[1]] []).1
        = .error .indexOutOfRange ∧
    SignError.indexOutOfRange ≠ SignError.shapeMismatch :=
  ⟨rfl, by decide⟩

/-- C9: when the authored transaction records no change output (sentinel
changeIndex = -1), RandomizeChangePosition indexes the output list at
position -1; the model returns none, standing for the Go runtime
index-out-of-range fault, never a guarded no-op. -/
theorem randomizeChangePosition_no_change_fault (atx : AuthoredTx) (r : Nat)
    (h : atx.changeIndex = -1) : RandomizeChangePosition atx r = none := by
  rw [RandomizeChangePosition, RandomizeOutputPosition, h]
  simp

/-- C9 witness: a concrete authored transaction with changeIndex -1 makes
RandomizeChangePosition fault for the draw r = 0. -/
theorem randomizeChangePosition_no_change_fault_witness :
    atxNoChange.changeIndex = -1 ∧ RandomizeChangePosition atxNoChange 0 = none :=
  ⟨rfl, randomizeChangePosition_no_change_fault atxNoChange 0 rfl⟩

/-- C10: in the signing loop, when identity extraction on the previous
script of the next input succeeds with an empty identity list, the code
indexes position 0 of that empty list: the model returns the
index-out-of-range fault (not an extraction error); and when the list is
non-empty only its first element is used for the key lookup, so a key
failure for that first element decides the outcome. -/
theorem addAllInputScripts_first_identity (extractA : ExtractFn) (getKey : GetKeyFn)
    (sg : SignFn) (prevPkScripts : List Script) (inputValues : List Amount)
    (i : Nat) (rest : List Nat) (tx : MsgTx) (s : Script)
    (hs : prevPkScripts[i]? = some s) :
    (extractA s = .ok [] →
      AddAllInputScriptsLoop extractA getKey sg prevPkScripts inputValues (i :: rest) tx
        = (.error .indexOutOfRange, tx)) ∧
    (∀ a t e, extractA s = .ok (a :: t) → getKey a = .error e →
      AddAllInputScriptsLoop extractA getKey sg prevPkScripts inputValues (i :: rest) tx
        = (.error (.getKey e), tx)) := by
  constructor
  · intro he
    have hstep : addInputScript extractA getKey sg prevPkScripts inputValues i tx
        = .error .indexOutOfRange := by
      rw [addInputScript, hs]
      simp [he]
    rw [AddAllInputScriptsLoop, hstep]
  · intro a t e he hk
    have hstep : addInputScript extractA getKey sg prevPkScripts inputValues i tx
        = .error (.getKey e) := by
      rw [addInputScript, hs]
      simp [he, hk]
    rw [AddAllInputScriptsLoop, hstep]

/-- C10 witness: extraction succeeding with the empty identity list makes
the signing loop fault with the out-of-range outcome. -/
theorem addAllInputScripts_first_identity_witness :
    ([[1]] : List Script)[0]? = some [1] ∧ extractEmpty [1] = .ok [] ∧
    AddAllInputScriptsLoop extractEmpty keyAlways sgByIndex [[1]] [] [0] txOneInput
      = (.error .indexOutOfRange, txOneInput) :=
  ⟨rfl, rfl,
    (addAllInputScripts_first_identity extractEmpty keyAlways sgByIndex [[1]] [] 0 []
      txOneInput [1] rfl).1 rfl⟩

/-- C8: for any valid index and any draw r inside the output list,
RandomizeOutputPosition succeeds, returns r as the new index, preserves
the multiset of outputs (the result is a permutation) and moves the
element originally at index to position r; and RandomizeChangePosition
updates changeIndex to the new position, so the tracked index still
points at the original change output. -/
theorem randomizeOutputPosition_swap_spec (outputs : List TxOut) (index r : Nat)
    (hi : index < outputs.length) (hr : r < outputs.length)
    (atx : AuthoredTx) (r2 : Nat) (hc : 0 ≤ atx.changeIndex)
    (hci : atx.changeIndex.toNat < atx.tx.txOut.length)
    (hr2 : r2 < atx.tx.txOut.length) :
    (∃ l, RandomizeOutputPosition outputs (index : Int) r = some (l, r) ∧
      l.Perm outputs ∧ l[r]? = outputs[index]?) ∧
    (∃ atx2, RandomizeChangePosition atx r2 = some atx2 ∧
      atx2.changeIndex = (r2 : Int) ∧ atx2.tx.txOut.Perm atx.tx.txOut ∧
      atx2.tx.txOut[r2]? = atx.tx.txOut[atx.changeIndex.toNat]?) := by
  constructor
  · have ha : outputs[index]? = some outputs[index] := List.getElem?_eq_getElem hi
    have hb : outputs[r]? = some outputs[r] := List.getElem?_eq_getElem hr
    refine ⟨(outputs.set r outputs[index]).set index outputs[r], ?_, ?_, ?_⟩
    · rw [RandomizeOutputPosition]
      simp [ha, hb]
    · exact set_set_swap_perm outputs index r outputs[index] outputs[r] ha hb
    · rw [getElem?_set_set_swap outputs index r outputs[index] outputs[r] ha hb, ha]
  · have ha : atx.tx.txOut[atx.changeIndex.toNat]? = some atx.tx.txOut[atx.changeIndex.toNat] :=
      List.getElem?_eq_getElem hci
    have hb : atx.tx.txOut[r2]? = some atx.tx.txOut[r2] := List.getElem?_eq_getElem hr2
    have hres : RandomizeOutputPosition atx.tx.txOut atx.changeIndex r2 =
        some ((atx.tx.txOut.set r2 atx.tx.txOut[atx.changeIndex.toNat]).set
          atx.changeIndex.toNat atx.tx.txOut[r2], r2) := by
      rw [RandomizeOutputPosition]
      rw [if_neg (by omega)]
      simp [ha, hb]
    refine ⟨{ atx with
        tx := { atx.tx with txOut := (atx.tx.txOut.set r2
          atx.tx.txOut[atx.changeIndex.toNat]).set atx.changeIndex.toNat atx.tx.txOut[r2] },
        changeIndex := (r2 : Int) }, ?_, rfl, ?_, ?_⟩
    · rw [RandomizeChangePosition, hres]
      rfl
    · exact set_set_swap_perm atx.tx.txOut atx.changeIndex.toNat r2 _ _ ha hb
    · exact (getElem?_set_set_swap atx.tx.txOut atx.changeIndex.toNat r2 _ _ ha hb).trans ha.symm

/-- C8 witness: swapping positions 0 and 1 of a two-output list, and
relocating the change output of a concrete authored transaction from
index 1 to draw 0. -/
theorem randomizeOutputPosition_swap_spec_witness :
    (0 : Nat) < outputsTwo.length ∧ (1 : Nat) < outputsTwo.length ∧
    (0 : Int) ≤ atxChange851.changeIndex ∧
    atxChange851.changeIndex.toNat < atxChange851.tx.txOut.length ∧
    (0 : Nat) < atxChange851.tx.txOut.length ∧
    ((∃ l, RandomizeOutputPosition outputsTwo ((0 : Nat) : Int) 1 = some (l, 1) ∧
      l.Perm outputsTwo ∧ l[1]? = outputsTwo[0]?) ∧
    (∃ atx2, RandomizeChangePosition atxChange851 0 = some atx2 ∧
      atx2.changeIndex = ((0 : Nat) : Int) ∧ atx2.tx.txOut.Perm atxChange851.tx.txOut ∧
      atx2.tx.txOut[0]? = atxChange851.tx.txOut[atxChange851.changeIndex.toNat]?)) :=
  ⟨by decide, by decide, by decide, by decide, by decide,
    randomizeOutputPosition_swap_spec outputsTwo 0 1 (by decide) (by decide)
      atxChange851 0 (by decide) (by decide) (by decide)⟩

/-- Helper: over an ascending index range, an erroring run of the signing
loop is pinned to its first failing index i inside the range: the run up
to i succeeds and produces exactly the returned transaction state, the
loop body at index i evaluated on that state raises exactly the returned
error, and the input slots from i on are unmodified. -/
theorem signLoop_error_first (extractA : ExtractFn) (getKey : GetKeyFn) (sg : SignFn)
    (prevPkScripts : List Script) (inputValues : List Amount) :
    ∀ (k a : Nat) (tx : MsgTx) (err : SignError) (tx2 : MsgTx),
      AddAllInputScriptsLoop extractA getKey sg prevPkScripts inputValues
        (List.range' a k) tx = (.error err, tx2) →
      ∃ i, a ≤ i ∧ i < a + k ∧
        AddAllInputScriptsLoop extractA getKey sg prevPkScripts inputValues
          (List.range' a (i - a)) tx = (.ok (), tx2) ∧
        addInputScript extractA getKey sg prevPkScripts inputValues i tx2
          = .error err ∧
        tx2.txIn.drop i = tx.txIn.drop i := by
  intro k
  induction k with
  | zero =>
    intro a tx err tx2 h
    simp [List.range', AddAllInputScriptsLoop] at h
  | succ n ih =>
    intro a tx err tx2 h
    rw [List.range'_succ] at h
    rw [AddAllInputScriptsLoop] at h
    cases hstep : addInputScript extractA getKey sg prevPkScripts inputValues a tx with
    | error e1 =>
      rw [hstep] at h
      simp only [Prod.mk.injEq] at h
      obtain ⟨herr, htx⟩ := h
      have herr2 : e1 = err := Except.error.inj herr
      subst herr2
      subst htx
      refine ⟨a, Nat.le_refl a, by omega, ?_, hstep, rfl⟩
      rw [Nat.sub_self]
      rfl
    | ok script =>
      rw [hstep] at h
      obtain ⟨i, hai, hlt, hpre, hstepi, hdrop⟩ :=
        ih (a + 1) (setSignatureScript tx a script) err tx2 h
      refine ⟨i, by omega, by omega, ?_, hstepi, ?_⟩
      · have hsub : i - a = (i - (a + 1)) + 1 := by omega
        rw [hsub, List.range'_succ, AddAllInputScriptsLoop, hstep]
        exact hpre
      · rw [hdrop]
        rw [setSignatureScript]
        cases ht : tx.txIn[a]? with
        | none => rfl
        | some txin => exact List.drop_set_of_lt _ _ (Nat.lt_of_succ_le hai)

/-- C4 amended: when AddAllInputScripts returns an error, either it is
the shape-mismatch error with the transaction untouched, or there is a
first failing input position i, strictly inside the input range, such
that the returned transaction is exactly the state after the successful
in-place signing of inputs 0..i-1 (the loop run over those indices
returns it with no error), the loop body at input i evaluated on that
state raises exactly the returned error (the first failure is the one
returned), and every input slot from i on is unmodified.  The
counterexample shows the slots before i do carry their new unlocking
scripts, so signing is not all-or-nothing. -/
theorem addAllInputScripts_error_at_first_failure (extractA : ExtractFn)
    (getKey : GetKeyFn) (sg : SignFn) (tx : MsgTx) (prevPkScripts : List Script)
    (inputValues : List Amount) (err : SignError) (tx2 : MsgTx)
    (h : AddAllInputScripts extractA getKey sg tx prevPkScripts inputValues
      = (.error err, tx2)) :
    (err = .shapeMismatch ∧ tx2 = tx) ∨
    ∃ i, i < tx.txIn.length ∧
      AddAllInputScriptsLoop extractA getKey sg prevPkScripts inputValues
        (List.range' 0 i) tx = (.ok (), tx2) ∧
      addInputScript extractA getKey sg prevPkScripts inputValues i tx2
        = .error err ∧
      tx2.txIn.drop i = tx.txIn.drop i := by
  rw [AddAllInputScripts] at h
  by_cases hlen : tx.txIn.length ≠ prevPkScripts.length
  · rw [if_pos hlen] at h
    simp only [Prod.mk.injEq] at h
    exact Or.inl ⟨(Except.error.inj h.1).symm, h.2.symm⟩
  · rw [if_neg hlen] at h
    rw [List.range_eq_range'] at h
    obtain ⟨i, hzero, hlt, hpre, hstepi, hdrop⟩ :=
      signLoop_error_first extractA getKey sg prevPkScripts inputValues
        tx.txIn.length 0 tx err tx2 h
    rw [Nat.sub_zero] at hpre
    exact Or.inr ⟨i, by omega, hpre, hstepi, hdrop⟩

/-- C4 counterexample: with two inputs where the first signs fine and the
key lookup for the second fails, the call returns the key error but the
first input already carries its new unlocking script: signing is not
all-or-nothing. -/
theorem signing_partial_mutation :
    (AddAllInputScripts extractBySuffix keyOnlyAddr0 sgByIndex txTwoInputs
        [[5], [6]] [10, 20]).1 = .error (.getKey 42) ∧
    ((AddAllInputScripts extractBySuffix keyOnlyAddr0 sgByIndex txTwoInputs
        [[5], [6]] [10, 20]).2.txIn.map TxIn.signatureScript) = [[9, 0], []] ∧
    (txTwoInputs.txIn.map TxIn.signatureScript) = [[], []] :=
  ⟨rfl, rfl, rfl⟩

/-- C4 amended witness: the failing two-input run returns the key error
raised at input 1, with input 0 signed exactly as the successful prefix
run leaves it and the slots from input 1 on unmodified. -/
theorem addAllInputScripts_error_at_first_failure_witness :
    AddAllInputScripts extractBySuffix keyOnlyAddr0 sgByIndex txTwoInputs
        [[5], [6]] [10, 20] = (.error (.getKey 42), txTwoSignedFirst) ∧
    ((SignError.getKey 42 = .shapeMismatch ∧ txTwoSignedFirst = txTwoInputs) ∨
    ∃ i, i < txTwoInputs.txIn.length ∧
      AddAllInputScriptsLoop extractBySuffix keyOnlyAddr0 sgByIndex [[5], [6]] [10, 20]
        (List.range' 0 i) txTwoInputs = (.ok (), txTwoSignedFirst) ∧
      addInputScript extractBySuffix keyOnlyAddr0 sgByIndex [[5], [6]] [10, 20] i
        txTwoSignedFirst = .error (.getKey 42) ∧
      txTwoSignedFirst.txIn.drop i = txTwoInputs.txIn.drop i) :=
  ⟨rfl, addAllInputScripts_error_at_first_failure extractBySuffix keyOnlyAddr0 sgByIndex
    txTwoInputs [[5], [6]] [10, 20] (.getKey 42) txTwoSignedFirst rfl⟩


/-- Helper: facts about the AuthoredTx built on the no-change path of
finalizeTx (residual zero or dust, sentinel change index). -/
theorem finalizeTx_noChange_case (outputs : List TxOut) (relayFeePerKb : Amount)
    (r : InputSourceResult) (mf : Amount) (atx : AuthoredTx)
    (hatx : (⟨⟨TxVersion, r.inputs, outputs, 0⟩, r.scripts, r.inputValues,
      r.total, -1⟩ : AuthoredTx) = atx)
    (hnc : ¬(r.total - SumOutputValues outputs - mf ≠ 0 ∧
      IsDustAmount (r.total - SumOutputValues outputs - mf)
        P2PKHPkScriptSize relayFeePerKb = false)) :
    atx.tx.txIn = r.inputs ∧ atx.totalInput = r.total ∧
    ((0 ≤ atx.changeIndex →
        atx.totalInput - SumOutputValues atx.tx.txOut - mf = 0) ∧
      (atx.changeIndex < 0 →
        (atx.totalInput - SumOutputValues atx.tx.txOut - mf = 0 ∨
          IsDustAmount (atx.totalInput - SumOutputValues atx.tx.txOut - mf)
            P2PKHPkScriptSize relayFeePerKb = true))) ∧
    (0 ≤ atx.changeIndex →
      ∃ c, atx.tx.txOut[atx.changeIndex.toNat]? = some c ∧ c.value ≠ 0 ∧
        IsDustAmount c.value P2PKHPkScriptSize relayFeePerKb = false) := by
  subst hatx
  refine ⟨rfl, rfl, ⟨?_, ?_⟩, ?_⟩
  · intro hpos
    simp at hpos
  · intro _
    by_cases hz : r.total - SumOutputValues outputs - mf = 0
    · exact Or.inl hz
    · refine Or.inr ?_
      cases hd : IsDustAmount (r.total - SumOutputValues outputs - mf)
          P2PKHPkScriptSize relayFeePerKb
      · exact absurd ⟨hz, hd⟩ hnc
      · rfl
  · intro hpos
    simp at hpos

/-- Helper: every AuthoredTx built by finalizeTx carries the inputs and
total of the InputSource response, satisfies exact conservation relative
to maxRequiredFee when a change output is present (and a zero-or-dust
residual otherwise), and any change output present is non-dust. -/
theorem finalizeTx_ok_spec (outputs : List TxOut) (relayFeePerKb : Amount)
    (fetchChange : ChangeSource) (r : InputSourceResult) (mf : Amount)
    (atx : AuthoredTx) (ci : Bool)
    (h : finalizeTx outputs relayFeePerKb fetchChange r mf = .done (.ok atx) ci) :
    atx.tx.txIn = r.inputs ∧ atx.totalInput = r.total ∧
    ((0 ≤ atx.changeIndex →
        atx.totalInput - SumOutputValues atx.tx.txOut - mf = 0) ∧
      (atx.changeIndex < 0 →
        (atx.totalInput - SumOutputValues atx.tx.txOut - mf = 0 ∨
          IsDustAmount (atx.totalInput - SumOutputValues atx.tx.txOut - mf)
            P2PKHPkScriptSize relayFeePerKb = true))) ∧
    (0 ≤ atx.changeIndex →
      ∃ c, atx.tx.txOut[atx.changeIndex.toNat]? = some c ∧ c.value ≠ 0 ∧
        IsDustAmount c.value P2PKHPkScriptSize relayFeePerKb = false) := by
  cases fetchChange with
  | error e =>
    rw [finalizeTx.eq_def] at h
    dsimp only at h
    split at h
    next hchange => simp at h
    next hnochange =>
      simp only [StepResult.done.injEq, Except.ok.injEq] at h
      exact finalizeTx_noChange_case outputs relayFeePerKb r mf atx h.1 hnochange
  | ok cs =>
    rw [finalizeTx.eq_def] at h
    dsimp only at h
    split at h
    next hchange =>
      split at h
      next hbig => simp at h
      next hsmall =>
        simp only [StepResult.done.injEq, Except.ok.injEq] at h
        obtain ⟨hatx, hci⟩ := h
        subst hatx
        refine ⟨rfl, rfl, ⟨?_, ?_⟩, ?_⟩
        · intro _
          dsimp only
          rw [SumOutputValues_append]
          simp only [SumOutputValues, List.map_cons, List.map_nil, List.sum_cons, List.sum_nil]
          ring
        · intro hneg
          dsimp only at hneg
          exact absurd hneg (not_lt.mpr (Int.natCast_nonneg _))
        · intro _
          refine ⟨⟨r.total - SumOutputValues outputs - mf, cs⟩, ?_, ?_, ?_⟩
          · simp
          · exact hchange.1
          · exact hchange.2
    next hnochange =>
      simp only [StepResult.done.injEq, Except.ok.injEq] at h
      exact finalizeTx_noChange_case outputs relayFeePerKb r mf atx h.1 hnochange


/-- Helper: every AuthoredTx produced by a finishing iteration step
satisfies the conservation and change/dust facts, with the required fee
recomputed from the number of inputs of the returned transaction. -/
theorem step_ok_spec (outputs : List TxOut) (relayFeePerKb : Amount)
    (fetchInputs : InputSource) (fetchChange : ChangeSource) (k : Nat) (f : Amount)
    (atx : AuthoredTx) (ci : Bool)
    (hstep : NewUnsignedTransactionStep outputs relayFeePerKb fetchInputs fetchChange k f
      = .done (.ok atx) ci) :
    ((0 ≤ atx.changeIndex →
        atx.totalInput - SumOutputValues atx.tx.txOut
          - FeeForSerializeSize relayFeePerKb
              (EstimateSerializeSize atx.tx.txIn.length outputs true) = 0) ∧
      (atx.changeIndex < 0 →
        (atx.totalInput - SumOutputValues atx.tx.txOut
          - FeeForSerializeSize relayFeePerKb
              (EstimateSerializeSize atx.tx.txIn.length outputs true) = 0 ∨
          IsDustAmount (atx.totalInput - SumOutputValues atx.tx.txOut
            - FeeForSerializeSize relayFeePerKb
                (EstimateSerializeSize atx.tx.txIn.length outputs true))
            P2PKHPkScriptSize relayFeePerKb = true))) ∧
    (0 ≤ atx.changeIndex →
      ∃ c, atx.tx.txOut[atx.changeIndex.toNat]? = some c ∧ c.value ≠ 0 ∧
        IsDustAmount c.value P2PKHPkScriptSize relayFeePerKb = false) := by
  rw [NewUnsignedTransactionStep.eq_def] at hstep
  dsimp only at hstep
  split at hstep
  next e heq => simp at hstep
  next r heq =>
    split at hstep
    next => simp at hstep
    next hge =>
      split at hstep
      next => simp at hstep
      next hfee =>
        obtain ⟨hin, htot, hcons, hchg⟩ :=
          finalizeTx_ok_spec outputs relayFeePerKb fetchChange r _ atx ci hstep
        rw [hin]
        exact ⟨hcons, hchg⟩

/-- Helper: any AuthoredTx returned by the loop was produced by some
finishing iteration step. -/
theorem loop_ok_invariant (outputs : List TxOut) (relayFeePerKb : Amount)
    (fetchInputs : InputSource) (fetchChange : ChangeSource) :
    ∀ (fuel k : Nat) (f : Amount) (atx : AuthoredTx),
      (NewUnsignedTransactionLoop outputs relayFeePerKb fetchInputs fetchChange fuel k f).result
        = some (.ok atx) →
      ∃ k2 f2 ci, NewUnsignedTransactionStep outputs relayFeePerKb fetchInputs fetchChange k2 f2
        = .done (.ok atx) ci := by
  intro fuel
  induction fuel with
  | zero =>
    intro k f atx h
    rw [NewUnsignedTransactionLoop] at h
    simp at h
  | succ n ih =>
    intro k f atx h
    rw [NewUnsignedTransactionLoop] at h
    cases hs : NewUnsignedTransactionStep outputs relayFeePerKb fetchInputs fetchChange k f with
    | done res ci =>
      rw [hs] at h
      have hres : res = .ok atx := Option.some.inj h
      subst hres
      exact ⟨k, f, ci, hs⟩
    | again f2 =>
      rw [hs] at h
      exact ih (k + 1) f2 atx h

/-- Helper: when the loop reports the change source as invoked, its
result is the result of a finishing step that invoked the change source. -/
theorem loop_change_invariant (outputs : List TxOut) (relayFeePerKb : Amount)
    (fetchInputs : InputSource) (fetchChange : ChangeSource) :
    ∀ (fuel k : Nat) (f : Amount),
      (NewUnsignedTransactionLoop outputs relayFeePerKb fetchInputs fetchChange fuel k f).changeInvoked
        = true →
      ∃ k2 f2 res, NewUnsignedTransactionStep outputs relayFeePerKb fetchInputs fetchChange k2 f2
          = .done res true ∧
        (NewUnsignedTransactionLoop outputs relayFeePerKb fetchInputs fetchChange fuel k f).result
          = some res := by
  intro fuel
  induction fuel with
  | zero =>
    intro k f h
    rw [NewUnsignedTransactionLoop] at h
    simp at h
  | succ n ih =>
    intro k f h
    rw [NewUnsignedTransactionLoop] at h
    cases hs : NewUnsignedTransactionStep outputs relayFeePerKb fetchInputs fetchChange k f with
    | done res ci =>
      rw [hs] at h
      cases ci with
      | false => simp at h
      | true =>
        refine ⟨k, f, res, hs, ?_⟩
        rw [NewUnsignedTransactionLoop, hs]
    | again f2 =>
      rw [hs] at h
      obtain ⟨k2, f2b, res, hstep, hres⟩ := ih (k + 1) f2 h
      refine ⟨k2, f2b, res, hstep, ?_⟩
      rw [NewUnsignedTransactionLoop, hs]
      exact hres

/-- Helper: when finalizeTx invokes a change source holding a script
larger than the P2PKH size class, the result is the
fee-estimation-consistency error. -/
theorem finalizeTx_change_spec (outputs : List TxOut) (relayFeePerKb : Amount)
    (s : Script) (r : InputSourceResult) (mf : Amount)
    (res : Except BuildError AuthoredTx)
    (hstep : finalizeTx outputs relayFeePerKb (.ok s) r mf = .done res true)
    (hlen : s.length > P2PKHPkScriptSize) :
    res = .error .feeEstimationConsistency := by
  rw [finalizeTx.eq_def] at hstep
  dsimp only at hstep
  split at hstep <;>
    first
      | (simp only [StepResult.done.injEq] at hstep
         exact hstep.1.symm)
      | (exact absurd hlen (by assumption))
      | simp at hstep

/-- Helper: a finishing step that invoked a change source holding an
oversized script returns the fee-estimation-consistency error. -/
theorem step_change_spec (outputs : List TxOut) (relayFeePerKb : Amount)
    (fetchInputs : InputSource) (s : Script) (k : Nat) (f : Amount)
    (res : Except BuildError AuthoredTx)
    (hstep : NewUnsignedTransactionStep outputs relayFeePerKb fetchInputs (.ok s) k f
      = .done res true)
    (hlen : s.length > P2PKHPkScriptSize) :
    res = .error .feeEstimationConsistency := by
  rw [NewUnsignedTransactionStep.eq_def] at hstep
  dsimp only at hstep
  split at hstep
  next e heq => simp at hstep
  next r heq =>
    split at hstep
    next => simp at hstep
    next hge =>
      split at hstep
      next => simp at hstep
      next hfee =>
        exact finalizeTx_change_spec outputs relayFeePerKb s r _ res hstep hlen

/-- Helper: finalizeTx always finishes the loop. -/
theorem finalizeTx_isDone (outputs : List TxOut) (relayFeePerKb : Amount)
    (fetchChange : ChangeSource) (r : InputSourceResult) (mf : Amount) :
    (finalizeTx outputs relayFeePerKb fetchChange r mf).isDone = true := by
  rcases fetchChange with e | cs
  · rw [finalizeTx.eq_def]
    dsimp only
    split
    · rfl
    · rfl
  · rw [finalizeTx.eq_def]
    dsimp only
    split
    · split
      · rfl
      · rfl
    · rfl

/-- Helper: when the input source returns exactly the requested total,
an iteration short on fee retries with exactly the recomputed required
fee of the returned input set. -/
theorem step_exact_again (outputs : List TxOut) (relayFeePerKb : Amount)
    (fetchInputs : InputSource) (fetchChange : ChangeSource) (k : Nat) (f : Amount)
    (r : InputSourceResult)
    (hfi : fetchInputs k (SumOutputValues outputs + f) = .ok r)
    (htot : r.total = SumOutputValues outputs + f)
    (hlt : f < FeeForSerializeSize relayFeePerKb
      (EstimateSerializeSize r.inputs.length outputs true)) :
    NewUnsignedTransactionStep outputs relayFeePerKb fetchInputs fetchChange k f
      = .again (FeeForSerializeSize relayFeePerKb
          (EstimateSerializeSize r.inputs.length outputs true)) := by
  have h1 : ¬ (r.total < SumOutputValues outputs + f) := by linarith
  have h2 : r.total - SumOutputValues outputs < FeeForSerializeSize relayFeePerKb
      (EstimateSerializeSize r.inputs.length outputs true) := by linarith
  rw [NewUnsignedTransactionStep.eq_def]
  dsimp only
  rw [hfi]
  dsimp only
  rw [if_neg h1, if_pos h2]

/-- Helper: when the input source returns exactly the requested total
and the recomputed fee does not exceed the current target fee, the
iteration finishes. -/
theorem step_exact_done (outputs : List TxOut) (relayFeePerKb : Amount)
    (fetchInputs : InputSource) (fetchChange : ChangeSource) (k : Nat) (f : Amount)
    (r : InputSourceResult)
    (hfi : fetchInputs k (SumOutputValues outputs + f) = .ok r)
    (htot : r.total = SumOutputValues outputs + f)
    (hge : ¬ f < FeeForSerializeSize relayFeePerKb
      (EstimateSerializeSize r.inputs.length outputs true)) :
    (NewUnsignedTransactionStep outputs relayFeePerKb fetchInputs fetchChange k f).isDone
      = true := by
  have h1 : ¬ (r.total < SumOutputValues outputs + f) := by linarith
  have h2 : ¬ (r.total - SumOutputValues outputs < FeeForSerializeSize relayFeePerKb
      (EstimateSerializeSize r.inputs.length outputs true)) := by linarith
  rw [NewUnsignedTransactionStep.eq_def]
  dsimp only
  rw [hfi]
  dsimp only
  rw [if_neg h1, if_neg h2]
  exact finalizeTx_isDone outputs relayFeePerKb fetchChange r _

/-- Helper: a finishing first step gives the loop a result after exactly
one input call. -/
theorem loop_done_outcome (outputs : List TxOut) (relayFeePerKb : Amount)
    (fetchInputs : InputSource) (fetchChange : ChangeSource) (fuel k : Nat) (f : Amount)
    (hdone : (NewUnsignedTransactionStep outputs relayFeePerKb fetchInputs fetchChange k f).isDone
      = true) :
    ((NewUnsignedTransactionLoop outputs relayFeePerKb fetchInputs fetchChange
        (fuel + 1) k f).result).isSome = true ∧
    (NewUnsignedTransactionLoop outputs relayFeePerKb fetchInputs fetchChange
        (fuel + 1) k f).inputCalls = 1 := by
  cases hs : NewUnsignedTransactionStep outputs relayFeePerKb fetchInputs fetchChange k f with
  | done res ci =>
    rw [NewUnsignedTransactionLoop, hs]
    exact ⟨rfl, rfl⟩
  | again f2 =>
    rw [hs] at hdone
    simp [StepResult.isDone] at hdone

/-- C1 (amended): for every successful build, TotalInput minus the sum
of all output values of the returned transaction (change included) minus
the required fee recomputed for the returned input count is exactly zero
whenever a change output is present (ChangeIndex at least 0); when no
change output is present the difference is the residual, which is zero
or classified as dust (the dust remainder is absorbed into the fee
rather than returned). -/
theorem newUnsignedTransaction_value_conservation (fuel : Nat) (outputs : List TxOut)
    (relayFeePerKb : Amount) (fetchInputs : InputSource) (fetchChange : ChangeSource)
    (atx : AuthoredTx)
    (h : (NewUnsignedTransaction fuel outputs relayFeePerKb fetchInputs fetchChange).result
      = some (.ok atx)) :
    (0 ≤ atx.changeIndex →
      atx.totalInput - SumOutputValues atx.tx.txOut
        - FeeForSerializeSize relayFeePerKb
            (EstimateSerializeSize atx.tx.txIn.length outputs true) = 0) ∧
    (atx.changeIndex < 0 →
      (atx.totalInput - SumOutputValues atx.tx.txOut
        - FeeForSerializeSize relayFeePerKb
            (EstimateSerializeSize atx.tx.txIn.length outputs true) = 0 ∨
        IsDustAmount (atx.totalInput - SumOutputValues atx.tx.txOut
          - FeeForSerializeSize relayFeePerKb
              (EstimateSerializeSize atx.tx.txIn.length outputs true))
          P2PKHPkScriptSize relayFeePerKb = true)) := by
  obtain ⟨k2, f2, ci, hstep⟩ := loop_ok_invariant outputs relayFeePerKb fetchInputs
    fetchChange fuel 0 (FeeForSerializeSize relayFeePerKb
      (EstimateSerializeSize 0 outputs true)) atx h
  exact (step_ok_spec outputs relayFeePerKb fetchInputs fetchChange k2 f2 atx ci hstep).1

/-- C2: for every successful build that produces a change output
(ChangeIndex at least 0), the output at the change index has a non-zero
value that the dust predicate does not classify as dust for a
P2PKH-sized script at the given fee rate. -/
theorem change_output_not_dust (fuel : Nat) (outputs : List TxOut)
    (relayFeePerKb : Amount) (fetchInputs : InputSource) (fetchChange : ChangeSource)
    (atx : AuthoredTx)
    (h : (NewUnsignedTransaction fuel outputs relayFeePerKb fetchInputs fetchChange).result
      = some (.ok atx))
    (hc : 0 ≤ atx.changeIndex) :
    ∃ c, atx.tx.txOut[atx.changeIndex.toNat]? = some c ∧ c.value ≠ 0 ∧
      IsDustAmount c.value P2PKHPkScriptSize relayFeePerKb = false := by
  obtain ⟨k2, f2, ci, hstep⟩ := loop_ok_invariant outputs relayFeePerKb fetchInputs
    fetchChange fuel 0 (FeeForSerializeSize relayFeePerKb
      (EstimateSerializeSize 0 outputs true)) atx h
  exact (step_ok_spec outputs relayFeePerKb fetchInputs fetchChange k2 f2 atx ci hstep).2 hc

/-- C6: whenever the change source is invoked and returns a script
strictly larger than the P2PKH output-script size assumed by the fee
estimator, the builder rejects with the fee-estimation-consistency
error instead of accepting the script. -/
theorem oversized_change_script_rejected (fuel : Nat) (outputs : List TxOut)
    (relayFeePerKb : Amount) (fetchInputs : InputSource) (s : Script)
    (hlen : s.length > P2PKHPkScriptSize)
    (hci : (NewUnsignedTransaction fuel outputs relayFeePerKb fetchInputs (.ok s)).changeInvoked
      = true) :
    (NewUnsignedTransaction fuel outputs relayFeePerKb fetchInputs (.ok s)).result
      = some (.error .feeEstimationConsistency) := by
  obtain ⟨k2, f2, res, hstep, hres⟩ := loop_change_invariant outputs relayFeePerKb
    fetchInputs (.ok s) fuel 0 (FeeForSerializeSize relayFeePerKb
      (EstimateSerializeSize 0 outputs true)) hci
  rw [step_change_spec outputs relayFeePerKb fetchInputs s k2 f2 res hstep hlen] at hres
  exact hres

/-- C7 (amended): for an input source that on each call returns exactly
the requested target with zero extra value AND always returns input sets
of one fixed size, the fee-negotiation loop reaches the finalize/return
branch or an error with at most 2 input-source calls.  (Without the
fixed-size condition the counterexample shows a third call can be
needed when the second response contains more inputs.) -/
theorem exact_fixed_source_two_calls (outputs : List TxOut) (relayFeePerKb : Amount)
    (fetchInputs : InputSource) (fetchChange : ChangeSource) (N : Nat)
    (hexact : ∀ k t, ∃ ins vals ss, fetchInputs k t = .ok ⟨t, ins, vals, ss⟩ ∧
      ins.length = N) (fuel : Nat) :
    ((NewUnsignedTransaction (fuel + 2) outputs relayFeePerKb fetchInputs
        fetchChange).result).isSome = true ∧
    (NewUnsignedTransaction (fuel + 2) outputs relayFeePerKb fetchInputs
        fetchChange).inputCalls ≤ 2 := by
  obtain ⟨ins0, vals0, ss0, hfi0, hlen0⟩ := hexact 0 (SumOutputValues outputs +
    FeeForSerializeSize relayFeePerKb (EstimateSerializeSize 0 outputs true))
  rw [NewUnsignedTransaction]
  rw [show fuel + 2 = fuel + 1 + 1 from rfl]
  by_cases hc : FeeForSerializeSize relayFeePerKb (EstimateSerializeSize 0 outputs true)
      < FeeForSerializeSize relayFeePerKb (EstimateSerializeSize N outputs true)
  · have hlt : FeeForSerializeSize relayFeePerKb (EstimateSerializeSize 0 outputs true)
        < FeeForSerializeSize relayFeePerKb (EstimateSerializeSize
            ((⟨SumOutputValues outputs + FeeForSerializeSize relayFeePerKb
              (EstimateSerializeSize 0 outputs true), ins0, vals0, ss0⟩ :
                InputSourceResult).inputs.length) outputs true) := by
      dsimp only
      rw [hlen0]
      exact hc
    have hstep0 := step_exact_again outputs relayFeePerKb fetchInputs fetchChange 0
      (FeeForSerializeSize relayFeePerKb (EstimateSerializeSize 0 outputs true))
      ⟨SumOutputValues outputs + FeeForSerializeSize relayFeePerKb
        (EstimateSerializeSize 0 outputs true), ins0, vals0, ss0⟩ hfi0 rfl hlt
    dsimp only at hstep0
    rw [hlen0] at hstep0
    rw [loop_of_step_again outputs relayFeePerKb fetchInputs fetchChange (fuel + 1) 0 _ _
      hstep0]
    dsimp only
    obtain ⟨ins1, vals1, ss1, hfi1, hlen1⟩ := hexact 1 (SumOutputValues outputs +
      FeeForSerializeSize relayFeePerKb (EstimateSerializeSize N outputs true))
    have hge1 : ¬ FeeForSerializeSize relayFeePerKb (EstimateSerializeSize N outputs true)
        < FeeForSerializeSize relayFeePerKb (EstimateSerializeSize
            ((⟨SumOutputValues outputs + FeeForSerializeSize relayFeePerKb
              (EstimateSerializeSize N outputs true), ins1, vals1, ss1⟩ :
                InputSourceResult).inputs.length) outputs true) := by
      dsimp only
      rw [hlen1]
      exact lt_irrefl _
    have hstep1 := step_exact_done outputs relayFeePerKb fetchInputs fetchChange 1
      (FeeForSerializeSize relayFeePerKb (EstimateSerializeSize N outputs true))
      ⟨SumOutputValues outputs + FeeForSerializeSize relayFeePerKb
        (EstimateSerializeSize N outputs true), ins1, vals1, ss1⟩ hfi1 rfl hge1
    obtain ⟨hsome, hone⟩ := loop_done_outcome outputs relayFeePerKb fetchInputs fetchChange
      fuel 1 (FeeForSerializeSize relayFeePerKb (EstimateSerializeSize N outputs true)) hstep1
    refine ⟨hsome, ?_⟩
    rw [hone]
  · have hge0 : ¬ FeeForSerializeSize relayFeePerKb (EstimateSerializeSize 0 outputs true)
        < FeeForSerializeSize relayFeePerKb (EstimateSerializeSize
            ((⟨SumOutputValues outputs + FeeForSerializeSize relayFeePerKb
              (EstimateSerializeSize 0 outputs true), ins0, vals0, ss0⟩ :
                InputSourceResult).inputs.length) outputs true) := by
      dsimp only
      rw [hlen0]
      exact hc
    have hstep0 := step_exact_done outputs relayFeePerKb fetchInputs fetchChange 0
      (FeeForSerializeSize relayFeePerKb (EstimateSerializeSize 0 outputs true))
      ⟨SumOutputValues outputs + FeeForSerializeSize relayFeePerKb
        (EstimateSerializeSize 0 outputs true), ins0, vals0, ss0⟩ hfi0 rfl hge0
    obtain ⟨hsome, hone⟩ := loop_done_outcome outputs relayFeePerKb fetchInputs fetchChange
      (fuel + 1) 0 (FeeForSerializeSize relayFeePerKb
        (EstimateSerializeSize 0 outputs true)) hstep0
    refine ⟨hsome, ?_⟩
    rw [hone]
    omega

/-- C1 counterexample: with a source returning one satoshi above each
request, the build succeeds with no change output and TotalInput minus
output sum minus the recomputed required fee equals 1, not 0: the dust
remainder breaks exact conservation as stated. -/
theorem conservation_fails_on_dust_remainder :
    (NewUnsignedTransaction 2 outputsPay 1000 sourcePlusOne changeOk25).result
        = some (.ok atxDust1) ∧
    atxDust1.totalInput - SumOutputValues atxDust1.tx.txOut
      - FeeForSerializeSize 1000
          (EstimateSerializeSize atxDust1.tx.txIn.length outputsPay true) = 1 :=
  ⟨rfl, by decide⟩

/-- C1 amended witness: a successful concrete build with a change output
satisfies the conservation statement. -/
theorem newUnsignedTransaction_value_conservation_witness :
    (NewUnsignedTransaction 1 outputsPay 1000 sourcePlus1000 changeOk25).result
        = some (.ok atxChange851) ∧
    ((0 ≤ atxChange851.changeIndex →
      atxChange851.totalInput - SumOutputValues atxChange851.tx.txOut
        - FeeForSerializeSize 1000
            (EstimateSerializeSize atxChange851.tx.txIn.length outputsPay true) = 0) ∧
    (atxChange851.changeIndex < 0 →
      (atxChange851.totalInput - SumOutputValues atxChange851.tx.txOut
        - FeeForSerializeSize 1000
            (EstimateSerializeSize atxChange851.tx.txIn.length outputsPay true) = 0 ∨
        IsDustAmount (atxChange851.totalInput - SumOutputValues atxChange851.tx.txOut
          - FeeForSerializeSize 1000
              (EstimateSerializeSize atxChange851.tx.txIn.length outputsPay true))
          P2PKHPkScriptSize 1000 = true))) :=
  ⟨rfl, newUnsignedTransaction_value_conservation 1 outputsPay 1000 sourcePlus1000
    changeOk25 atxChange851 rfl⟩

/-- C2 witness: the concrete build with an 851-satoshi change output at
index 1 has a non-zero, non-dust change output there. -/
theorem change_output_not_dust_witness :
    (NewUnsignedTransaction 1 outputsPay 1000 sourcePlus1000 changeOk25).result
        = some (.ok atxChange851) ∧
    (0 : Int) ≤ atxChange851.changeIndex ∧
    ∃ c, atxChange851.tx.txOut[atxChange851.changeIndex.toNat]? = some c ∧ c.value ≠ 0 ∧
      IsDustAmount c.value P2PKHPkScriptSize 1000 = false :=
  ⟨rfl, by decide, change_output_not_dust 1 outputsPay 1000 sourcePlus1000 changeOk25
    atxChange851 rfl (by decide)⟩

/-- C6 witness: a change source producing a 26-byte script makes the
concrete build fail with the fee-estimation-consistency error. -/
theorem oversized_change_script_rejected_witness :
    (List.replicate 26 7 : Script).length > P2PKHPkScriptSize ∧
    (NewUnsignedTransaction 1 outputsPay 1000 sourcePlus1000
        (.ok (List.replicate 26 7))).changeInvoked = true ∧
    (NewUnsignedTransaction 1 outputsPay 1000 sourcePlus1000
        (.ok (List.replicate 26 7))).result
      = some (.error .feeEstimationConsistency) :=
  ⟨by decide, rfl, oversized_change_script_rejected 1 outputsPay 1000 sourcePlus1000
    (List.replicate 26 7) (by decide) rfl⟩

/-- C7 counterexample: an input source that returns exactly the
requested total on every call (one input for requests up to 50080, two
inputs above) makes the loop converge only after 3 input-source calls:
the three requests 50080, 50229 and 50378 are each answered exactly, yet
the recomputed fee of the grown input set forces a third iteration. -/
theorem exact_source_three_calls :
    sourceExactGrowing 0 50080 = .ok ⟨50080, [⟨(0, 0), []⟩], [50080], [[]]⟩ ∧
    sourceExactGrowing 1 50229
      = .ok ⟨50229, [⟨(0, 0), []⟩, ⟨(1, 0), []⟩], [50228, 1], [[], []]⟩ ∧
    sourceExactGrowing 2 50378
      = .ok ⟨50378, [⟨(0, 0), []⟩, ⟨(1, 0), []⟩], [50377, 1], [[], []]⟩ ∧
    ((NewUnsignedTransaction 5 outputsPay 1000 sourceExactGrowing changeOk25).result).isSome
        = true ∧
    (NewUnsignedTransaction 5 outputsPay 1000 sourceExactGrowing changeOk25).inputCalls = 3 :=
  ⟨rfl, rfl, rfl, rfl, rfl⟩

/-- C7 amended witness: a source returning exactly the requested total
with always one input converges with at most two calls. -/
theorem exact_fixed_source_two_calls_witness :
    ((NewUnsignedTransaction 2 outputsPay 1000 sourceExactOne changeOk25).result).isSome
        = true ∧
    (NewUnsignedTransaction 2 outputsPay 1000 sourceExactOne changeOk25).inputCalls ≤ 2 :=
  exact_fixed_source_two_calls outputsPay 1000 sourceExactOne changeOk25 1
    (fun _ t => ⟨[⟨(0, 0), []⟩], [t], [[]], rfl, rfl⟩) 0

end TxAuthor
